import Mathlib

/-!
Shallow embedding of `src/runtime/src/auction.rs` (a Substrate-style auction
pallet) and verification of its specification claims.

Modelling conventions:
- `[u8; 16]` identifiers (`record_id`, `item_id`) are only generated, stored
  and compared for equality, so they are modelled as `Nat`.
- `T::AccountId` is an abstract equality type in the source; modelled as `Nat`.
- `BalanceOf<T>` (`SimpleArithmetic`) is modelled as `Nat` (prices are only
  compared and never overflow-arithmetic is applied to them in this module).
- The three `decl_storage!` maps become association lists inside a `Store`
  structure; `StorageMap::get` on the non-`Option` maps returns the `Default`
  value (`0`) when the key is absent, `exists` is `Option.isSome` of lookup.
- Each dispatchable is a function `Store -> params -> Store × Option String`:
  the returned store is the storage at the moment the call finished or aborted
  (writes performed before an `ensure!` failure would persist — the result
  threads the store through every write in source order), and the second
  component is `none` on success or the source's `&'static str` error message.
- `random_value` draws on external entropy (`random_seed`, `extrinsic_index`,
  `block_number`); the generated 128-bit id is modelled as an explicit
  argument supplied by the environment.
- `get_current_time` is a stub returning `0` in the source (marked TODO); the
  clock is an external collaborator, so the operations that call it take the
  current time `now` as an explicit argument, and `get_current_time` is kept
  as the stub constant that the source would pass for `now`.
-/

namespace AuctionPallet

/-- `AuctionStatus` from the source: `NotStarted`, `Started`, `Paused`,
`Selled` (the spec's `Sold`), `Unselled` (the spec's `Unsold`). -/
inductive AuctionStatus where
  | NotStarted
  | Started
  | Paused
  | Selled
  | Unselled
deriving DecidableEq, Repr

/-- `AuctionRecord<T>` from the source, field for field. -/
structure AuctionRecord where
  record_id : Nat
  item_id : Nat
  begin_time : Nat
  end_time : Option Nat
  start_price : Nat
  current_price : Nat
  bid_range : Nat
  status : AuctionStatus
  item_receiver : Option Nat
  item_seller : Nat
deriving DecidableEq, Repr

/-- Association-list lookup: first binding of the key, if any. -/
def mapLookup {α β : Type} [DecidableEq α] (m : List (α × β)) (k : α) : Option β :=
  match m with
  | [] => none
  | (k', v) :: rest => if k = k' then some v else mapLookup rest k

/-- Association-list insert: replaces the first binding of the key, or
appends a new binding (models `StorageMap::insert`). -/
def mapInsert {α β : Type} [DecidableEq α] (m : List (α × β)) (k : α) (v : β) : List (α × β) :=
  match m with
  | [] => [(k, v)]
  | (k', v') :: rest => if k = k' then (k, v) :: rest else (k', v') :: mapInsert rest k v

/-- The three `decl_storage!` maps of the `Auctions` module:
`AuctionRecords : map [u8;16] => Option<AuctionRecord>`,
`RecordIds : map (AccountId, [u8;16]) => [u8;16]`,
`AuctionsItemRecord : map [u8;16] => AccountId`. -/
structure Store where
  auctionRecords : List (Nat × AuctionRecord)
  recordIds : List ((Nat × Nat) × Nat)
  auctionsItemRecord : List (Nat × Nat)
deriving DecidableEq, Repr

/-- `Self::record(record_id)`: the `Option`-valued getter of `AuctionRecords`. -/
def Store.record (s : Store) (record_id : Nat) : Option AuctionRecord :=
  mapLookup s.auctionRecords record_id

/-- `Self::record_id((user, item_id))`: getter of `RecordIds`; `StorageMap::get`
returns the `Default` value (`[0u8; 16]`, modelled `0`) when the key is absent. -/
def Store.record_id (s : Store) (k : Nat × Nat) : Nat :=
  (mapLookup s.recordIds k).getD 0

/-- `Self::auction_item_record(item_id)`: getter of `AuctionsItemRecord`;
default `AccountId` (modelled `0`) when absent. -/
def Store.auction_item_record (s : Store) (item_id : Nat) : Nat :=
  (mapLookup s.auctionsItemRecord item_id).getD 0

/-- The ledger's initial storage: all three maps empty. -/
def emptyStore : Store :=
  { auctionRecords := [], recordIds := [], auctionsItemRecord := [] }

/-- `get_current_time` from the source: a stub that returns `0`
(the source marks it TODO). -/
def get_current_time : Nat := 0

/-- `change_auction_status(sender, record_id, status)` from the source:
ensures the record exists, ensures `item_seller != sender` (the source's
ownership comparison, as written), then overwrites `status` and re-inserts
the record. -/
def change_auction_status (s : Store) (sender : Nat) (record_id : Nat)
    (status : AuctionStatus) : Store × Option String :=
  match s.record record_id with
  | none => (s, some "无此拍卖信息")
  | some auction_record =>
    if auction_record.item_seller = sender then
      (s, some "用户无此拍卖信息")
    else
      ({ s with auctionRecords :=
          mapInsert s.auctionRecords record_id { auction_record with status := status } },
       none)

/-- `create_auction(origin, item_id, begin_time, start_price, bid_range, item_seller)`
from the source. `sender` is the signed origin (used only to seed
`random_value`); `record_id` is the identifier `random_value` produced from
the external entropy. -/
def create_auction (s : Store) (sender : Nat) (item_id : Nat) (begin_time : Nat)
    (start_price : Nat) (bid_range : Nat) ( item_seller : Nat) (record_id : Nat) :
    Store × Option String :=
  if ¬ bid_range > 0 then (s, some "加价幅度不可为0")
  else if (mapLookup s.auctionsItemRecord item_id).isSome then (s, some "此物品已在拍卖状态")
  else
    let new_auction : AuctionRecord :=
      { record_id := record_id
        item_id := item_id
        begin_time := begin_time
        end_time := none
        start_price := start_price
        current_price := 0
        bid_range := bid_range
        status := AuctionStatus.NotStarted
        item_receiver := none
        item_seller := item_seller }
    ({ auctionRecords := mapInsert s.auctionRecords record_id new_auction
       recordIds := mapInsert s.recordIds (item_seller, item_id) record_id
       auctionsItemRecord := mapInsert s.auctionsItemRecord item_id item_seller },
     none)

/-- The bid path's expiry test, as written in the source:
`(!auction_record.end_time.is_some()) || (now > auction_record.end_time.unwrap())`.
Note that an absent `end_time` counts as expired. -/
def bidExpiry (end_time : Option Nat) (now : Nat) : Bool :=
  match end_time with
  | none => true
  | some e => decide (e < now)

/-- `create_auction_record(origin, auction_user, record_id)` from the source —
the bid entry point. `now` is the value `Self::get_current_time()` would
supply. The checks, in source order: `sender == auction_user`; record exists;
`status == NotStarted`; `now >= begin_time`. Then the expiry branch settles
through `change_auction_status`; the non-expired `Started` branch is an empty
TODO in the source, so it leaves the store unchanged. -/
def create_auction_record (s : Store) (sender : Nat) (auction_user : Nat)
    (record_id : Nat) (now : Nat) : Store × Option String :=
  if ¬ sender = auction_user then (s, some "竞拍者不能为发布拍品人")
  else
    match s.record record_id with
    | none => (s, some "不存在此拍卖")
    | some auction_record =>
      if ¬ auction_record.status = AuctionStatus.NotStarted then
        (s, some "此拍卖品当前不可拍卖")
      else if ¬ now ≥ auction_record.begin_time then (s, some "拍卖尚未开始")
      else if bidExpiry auction_record.end_time now then
        if auction_record.item_receiver.isSome then
          change_auction_status s sender record_id AuctionStatus.Selled
        else
          change_auction_status s sender record_id AuctionStatus.Unselled
      else if auction_record.status = AuctionStatus.Started then
        (s, none)
      else (s, none)

/-- The settlement path's expiry test, as written in the source:
`auction_record.end_time.is_some() && (auction_record.end_time.unwrap() < now)`. -/
def settleExpiry (end_time : Option Nat) (now : Nat) : Bool :=
  match end_time with
  | none => false
  | some e => decide (e < now)

/-- `auction_settle_accounts(origin, item_id)` from the source. `now` is the
value `Self::get_current_time()` would supply. Resolves
`item_id -> item_seller -> record_id -> record` through the two indices, is a
no-op on terminal records, and otherwise calls `change_auction_status` —
passing `item_id` in the `record_id` position, exactly as the source does. -/
def auction_settle_accounts (s : Store) (sender : Nat) (item_id : Nat) (now : Nat) :
    Store × Option String :=
  if ¬ (mapLookup s.auctionsItemRecord item_id).isSome then (s, some "不存在此拍卖")
  else
    let item_seller := s.auction_item_record item_id
    if ¬ (mapLookup s.recordIds (item_seller, item_id)).isSome then (s, some "不存在此拍卖")
    else
      let record_id := s.record_id (item_seller, item_id)
      match s.record record_id with
      | none => (s, some "不存在此拍卖")
      | some auction_record =>
        if auction_record.status = AuctionStatus.Selled ∨
            auction_record.status = AuctionStatus.Unselled then
          (s, none)
        else if settleExpiry auction_record.end_time now then
          if auction_record.current_price = auction_record.start_price then
            change_auction_status s sender item_id AuctionStatus.Unselled
          else
            change_auction_status s sender item_id AuctionStatus.Selled
        else
          change_auction_status s sender item_id AuctionStatus.Selled

/-- One invocation of an exposed operation, with every externally supplied
input (signed origin, parameters, entropy-derived id, clock reading) recorded
in the constructor. -/
inductive Op where
  | create (sender item_id begin_time start_price bid_range item_seller record_id : Nat)
  | bid (sender auction_user record_id now : Nat)
  | settle (sender item_id now : Nat)
  | force (sender record_id : Nat) (status : AuctionStatus)
deriving DecidableEq, Repr

/-- Apply one operation to the store; the store an operation hands back is its
final storage whether it succeeded or aborted. -/
def applyOp (s : Store) (op : Op) : Store :=
  match op with
  | .create sender item_id bt sp br isl rid =>
    (create_auction s sender item_id bt sp br isl rid).1
  | .bid sender au rid now => (create_auction_record s sender au rid now).1
  | .settle sender item now => (auction_settle_accounts s sender item now).1
  | .force sender rid st => (change_auction_status s sender rid st).1

/-- Apply a sequence of operations in ledger order. -/
def runOps (s : Store) : List Op → Store
  | [] => s
  | op :: rest => runOps (applyOp s op) rest

/-- A record equal to `r` except for its status field. -/
def setStatus (r : AuctionRecord) (st : AuctionStatus) : AuctionRecord :=
  { r with status := st }

theorem setStatus_self (r : AuctionRecord) : setStatus r r.status = r := rfl

/-- The store after overwriting the status of the record stored at `record_id`
(the single write `change_auction_status` performs on success). -/
def withStatusWrite (s : Store) (record_id : Nat) (r : AuctionRecord)
    (st : AuctionStatus) : Store :=
  { s with auctionRecords := mapInsert s.auctionRecords record_id (setStatus r st) }

theorem mapLookup_mapInsert {α β : Type} [DecidableEq α] (m : List (α × β)) (k k' : α)
    (v : β) :
    mapLookup (mapInsert m k v) k' = if k' = k then some v else mapLookup m k' := by
  induction m with
  | nil => simp [mapInsert, mapLookup]
  | cons hd tl ih =>
    obtain ⟨k0, v0⟩ := hd
    by_cases hkk0 : k = k0
    · subst hkk0
      by_cases hk' : k' = k <;> simp [mapInsert, mapLookup, hk']
    · by_cases hk0 : k' = k0
      · have hne : ¬ k' = k := fun hh => hkk0 (hh.symm.trans hk0)
        have hne2 : ¬ k0 = k := fun hh => hkk0 hh.symm
        simp [mapInsert, mapLookup, hkk0, hk0, hne, hne2]
      · simp [mapInsert, mapLookup, hkk0, hk0, ih]

/-- On any failure, `change_auction_status` has not written the store. -/
theorem change_status_shape (s : Store) (sender record_id : Nat) (st : AuctionStatus) :
    (change_auction_status s sender record_id st).1 = s ∨
      (change_auction_status s sender record_id st).2 = none := by
  unfold change_auction_status
  split
  · left; rfl
  · split
    · left; rfl
    · right; rfl

/-- Successful `change_auction_status` rewrites exactly the targeted record's
status field. -/
theorem change_status_ok {s : Store} {sender record_id : Nat} {st : AuctionStatus}
    {r : AuctionRecord} (hrec : s.record record_id = some r)
    (hsel : r.item_seller ≠ sender) :
    change_auction_status s sender record_id st = (withStatusWrite s record_id r st, none) := by
  unfold change_auction_status withStatusWrite
  rw [hrec]
  simp [hsel, setStatus]

/-- When the caller IS the stored seller, `change_auction_status` rejects. -/
theorem change_status_fail_seller {s : Store} {sender record_id : Nat} {st : AuctionStatus}
    {r : AuctionRecord} (hrec : s.record record_id = some r)
    (hsel : r.item_seller = sender) :
    change_auction_status s sender record_id st = (s, some "用户无此拍卖信息") := by
  unfold change_auction_status
  rw [hrec]
  simp [hsel]

/-- Every record present after `change_auction_status` is a record of the input
store with (at most) its status field rewritten. -/
theorem change_status_onlyStatus {s : Store} {sender record_id : Nat} {st : AuctionStatus}
    {rid' : Nat} {r' : AuctionRecord}
    (h : ((change_auction_status s sender record_id st).1).record rid' = some r') :
    ∃ r, s.record rid' = some r ∧ r' = setStatus r r'.status := by
  unfold change_auction_status at h
  cases hrec : s.record record_id with
  | none =>
    rw [hrec] at h
    exact ⟨r', h, (setStatus_self r').symm⟩
  | some r =>
    rw [hrec] at h
    by_cases hsel : r.item_seller = sender
    · simp only [hsel, if_pos rfl] at h
      exact ⟨r', h, (setStatus_self r').symm⟩
    · simp only [if_neg hsel] at h
      simp only [Store.record] at h
      rw [mapLookup_mapInsert] at h
      by_cases hrid : rid' = record_id
      · rw [if_pos hrid] at h
        have hr' : setStatus r st = r' := Option.some.inj h
        refine ⟨r, hrid ▸ hrec, ?_⟩
        rw [← hr']
        rfl
      · rw [if_neg hrid] at h
        exact ⟨r', h, (setStatus_self r').symm⟩

/-- `change_auction_status` never touches a record stored under another key. -/
theorem change_status_other_key {s : Store} {sender record_id : Nat} {st : AuctionStatus}
    {rid' : Nat} (hne : rid' ≠ record_id) :
    ((change_auction_status s sender record_id st).1).record rid' = s.record rid' := by
  unfold change_auction_status
  split
  · rfl
  · split
    · rfl
    · simp only [Store.record]
      rw [mapLookup_mapInsert, if_neg hne]

/-- `create_auction` either leaves the store untouched or succeeds. -/
theorem create_auction_shape (s : Store) (sender item_id begin_time start_price bid_range
    item_seller record_id : Nat) :
    (create_auction s sender item_id begin_time start_price bid_range item_seller
        record_id).1 = s ∨
      (create_auction s sender item_id begin_time start_price bid_range item_seller
        record_id).2 = none := by
  unfold create_auction
  split
  · left; rfl
  · split
    · left; rfl
    · right; rfl

/-- `create_auction_record` either leaves the store untouched or succeeds. -/
theorem create_auction_record_shape (s : Store) (sender auction_user record_id now : Nat) :
    (create_auction_record s sender auction_user record_id now).1 = s ∨
      (create_auction_record s sender auction_user record_id now).2 = none := by
  unfold create_auction_record
  split
  · left; rfl
  · split
    · left; rfl
    · split
      · left; rfl
      · split
        · left; rfl
        · split
          · split
            · exact change_status_shape ..
            · exact change_status_shape ..
          · split
            · right; rfl
            · right; rfl

/-- `auction_settle_accounts` either leaves the store untouched or succeeds. -/
theorem auction_settle_accounts_shape (s : Store) (sender item_id now : Nat) :
    (auction_settle_accounts s sender item_id now).1 = s ∨
      (auction_settle_accounts s sender item_id now).2 = none := by
  unfold auction_settle_accounts
  split
  · left; rfl
  · dsimp only
    split
    · left; rfl
    · split
      · left; rfl
      · split
        · right; rfl
        · split
          · split
            · exact change_status_shape ..
            · exact change_status_shape ..
          · exact change_status_shape ..

/-- Every record present after `create_auction_record` is a record of the input
store with (at most) its status field rewritten. -/
theorem create_auction_record_onlyStatus {s : Store} {sender auction_user record_id now : Nat}
    {rid' : Nat} {r' : AuctionRecord}
    (h : ((create_auction_record s sender auction_user record_id now).1).record rid' =
      some r') :
    ∃ r, s.record rid' = some r ∧ r' = setStatus r r'.status := by
  unfold create_auction_record at h
  split at h
  · exact ⟨r', h, (setStatus_self r').symm⟩
  · split at h
    · exact ⟨r', h, (setStatus_self r').symm⟩
    · split at h
      · exact ⟨r', h, (setStatus_self r').symm⟩
      · split at h
        · exact ⟨r', h, (setStatus_self r').symm⟩
        · split at h
          · split at h
            · exact change_status_onlyStatus h
            · exact change_status_onlyStatus h
          · split at h
            · exact ⟨r', h, (setStatus_self r').symm⟩
            · exact ⟨r', h, (setStatus_self r').symm⟩

/-- Every record present after `auction_settle_accounts` is a record of the
input store with (at most) its status field rewritten. -/
theorem auction_settle_accounts_onlyStatus {s : Store} {sender item_id now : Nat}
    {rid' : Nat} {r' : AuctionRecord}
    (h : ((auction_settle_accounts s sender item_id now).1).record rid' = some r') :
    ∃ r, s.record rid' = some r ∧ r' = setStatus r r'.status := by
  unfold auction_settle_accounts at h
  split at h
  · exact ⟨r', h, (setStatus_self r').symm⟩
  · dsimp only at h
    split at h
    · exact ⟨r', h, (setStatus_self r').symm⟩
    · split at h
      · exact ⟨r', h, (setStatus_self r').symm⟩
      · split at h
        · exact ⟨r', h, (setStatus_self r').symm⟩
        · split at h
          · split at h
            · exact change_status_onlyStatus h
            · exact change_status_onlyStatus h
          · exact change_status_onlyStatus h

/-- The creation-time shape of every reachable record: `end_time`,
`item_receiver` and `current_price` keep the values `create_auction` gave them. -/
def storeInv (s : Store) : Prop :=
  ∀ rid r, s.record rid = some r →
    r.end_time = none ∧ r.item_receiver = none ∧ r.current_price = 0

theorem storeInv_empty : storeInv emptyStore := by
  intro rid r h
  simp [emptyStore, Store.record, mapLookup] at h

theorem storeInv_create (s : Store) (sender item_id begin_time start_price bid_range
    item_seller record_id : Nat) (hinv : storeInv s) :
    storeInv (create_auction s sender item_id begin_time start_price bid_range
      item_seller record_id).1 := by
  intro rid' r' h
  unfold create_auction at h
  split at h
  · exact hinv rid' r' h
  · split at h
    · exact hinv rid' r' h
    · simp only [Store.record] at h
      rw [mapLookup_mapInsert] at h
      by_cases hrid : rid' = record_id
      · rw [if_pos hrid] at h
        have := Option.some.inj h
        rw [← this]
        exact ⟨rfl, rfl, rfl⟩
      · rw [if_neg hrid] at h
        exact hinv rid' r' h

theorem storeInv_of_onlyStatus {s s' : Store} (hinv : storeInv s)
    (honly : ∀ rid' r', s'.record rid' = some r' →
      ∃ r, s.record rid' = some r ∧ r' = setStatus r r'.status) :
    storeInv s' := by
  intro rid' r' h
  obtain ⟨r, hr, hset⟩ := honly rid' r' h
  obtain ⟨h1, h2, h3⟩ := hinv rid' r hr
  rw [hset]
  exact ⟨h1, h2, h3⟩

theorem storeInv_applyOp (s : Store) (op : Op) (hinv : storeInv s) :
    storeInv (applyOp s op) := by
  cases op with
  | create sender item_id bt sp br isl rid =>
    exact storeInv_create s sender item_id bt sp br isl rid hinv
  | bid sender au rid now =>
    exact storeInv_of_onlyStatus hinv fun rid' r' h =>
      create_auction_record_onlyStatus h
  | settle sender item now =>
    exact storeInv_of_onlyStatus hinv fun rid' r' h =>
      auction_settle_accounts_onlyStatus h
  | force sender rid st =>
    exact storeInv_of_onlyStatus hinv fun rid' r' h =>
      change_status_onlyStatus h

theorem storeInv_runOps (s : Store) (ops : List Op) (hinv : storeInv s) :
    storeInv (runOps s ops) := by
  induction ops generalizing s with
  | nil => exact hinv
  | cons op rest ih => exact ih (applyOp s op) (storeInv_applyOp s op hinv)

/-- The record `create_auction emptyStore 1 2 0 10 1 5 7` stores: item `2`,
window beginning at `0` with no `end_time`, start price `10`, increment `1`,
seller `5`, generated id `7`. -/
def demoRecord : AuctionRecord :=
  { record_id := 7
    item_id := 2
    begin_time := 0
    end_time := none
    start_price := 10
    current_price := 0
    bid_range := 1
    status := AuctionStatus.NotStarted
    item_receiver := none
    item_seller := 5 }

/-- The store after account `1` lists item `2` for seller `5` on the empty
ledger (generated record id `7`). -/
def demoStore : Store := (create_auction emptyStore 1 2 0 10 1 5 7).1

/-- Like `demoRecord` but with a set end time `10`, so that a bid at time `5`
is inside the auction window. -/
def windowRecord : AuctionRecord := { demoRecord with end_time := some 10 }

/-- A store holding `windowRecord` (with its two index entries). -/
def windowStore : Store :=
  { auctionRecords := [(7, windowRecord)]
    recordIds := [((5, 2), 7)]
    auctionsItemRecord := [(2, 5)] }

/-- `windowRecord` already `Started`. -/
def startedRecord : AuctionRecord := { windowRecord with status := AuctionStatus.Started }

/-- A store holding `startedRecord`. -/
def startedStore : Store :=
  { auctionRecords := [(7, startedRecord)]
    recordIds := [((5, 2), 7)]
    auctionsItemRecord := [(2, 5)] }

/-- `windowRecord` in the `Paused` state. -/
def pausedRecord : AuctionRecord := { windowRecord with status := AuctionStatus.Paused }

/-- A store holding `pausedRecord`. -/
def pausedStore : Store :=
  { auctionRecords := [(7, pausedRecord)]
    recordIds := [((5, 2), 7)]
    auctionsItemRecord := [(2, 5)] }

/-- A `Started` record whose window (`end_time = 5`) has passed at time `9` and
whose price was raised above the start price: ripe for settlement. -/
def expiredRecord : AuctionRecord :=
  { demoRecord with status := AuctionStatus.Started, end_time := some 5, current_price := 20 }

/-- A store holding `expiredRecord` under record id `7` (and no record under
the item id `2`). -/
def expiredStore : Store :=
  { auctionRecords := [(7, expiredRecord)]
    recordIds := [((5, 2), 7)]
    auctionsItemRecord := [(2, 5)] }

/-- C1: the spec requires `change_auction_status` to succeed exactly for the
record's seller and reject everyone else. The source's ownership comparison is
inverted (`ensure!(item_seller != sender)`): at the concrete store, the seller
(account `5`) is rejected with the unauthorized message while a stranger
(account `3`) succeeds and overwrites the status. This theorem evaluates the
code at that failing input. -/
theorem c1_ownership_inverted :
    change_auction_status demoStore 5 7 AuctionStatus.Paused =
        (demoStore, some "用户无此拍卖信息") ∧
      (change_auction_status demoStore 3 7 AuctionStatus.Paused).2 = none ∧
      ((change_auction_status demoStore 3 7 AuctionStatus.Paused).1).record 7 =
        some (setStatus demoRecord AuctionStatus.Paused) :=
  ⟨rfl, rfl, rfl⟩

/-- C2: at a bid input that passes every check and is not expired
(`end_time = 10`, `now = 5`, status `NotStarted`, bidder `3` distinct from
seller `5`), the source's accepted-bid branch is an empty TODO: the call
succeeds but the store is returned unchanged — no `current_price`, `receiver`
or status mutation, and no bid amount even exists in the signature. This
theorem evaluates the code at that failing input. -/
theorem c2_bid_acceptance_missing :
    bidExpiry windowRecord.end_time 5 = false ∧
      windowRecord.status = AuctionStatus.NotStarted ∧
      create_auction_record windowStore 3 3 7 5 = (windowStore, none) :=
  ⟨rfl, rfl, rfl⟩

/-- C3 counterexample: (i) a record with `end_time = none` IS settled by the
bid path's expiry branch (here to `Unselled`), though the claim says records
with no `end_time` are not settled by it; (ii) inside the branch the
transition is not unconditional: when the caller is the seller the inner
ownership check rejects the call. -/
theorem c3_counterexample :
    demoRecord.end_time = none ∧
      (create_auction_record demoStore 3 3 7 0).2 = none ∧
      ((create_auction_record demoStore 3 3 7 0).1).record 7 =
        some (setStatus demoRecord AuctionStatus.Unselled) ∧
      create_auction_record demoStore 5 5 7 0 = (demoStore, some "用户无此拍卖信息") :=
  ⟨rfl, rfl, rfl, rfl⟩

/-- C3 (amended): for a bid that passes the sender, existence, status and
begin-time checks, the settlement-as-side-effect branch is taken exactly when
`end_time` is unset **or** `now > end_time`; in that branch, when the caller
is not the seller, the record transitions to `Selled` if `item_receiver` is
set and `Unselled` otherwise, with only the status field rewritten (no
price/receiver mutation), while a caller equal to the seller is rejected by
the inner ownership check with the store unchanged; when `end_time` is set
and not passed, the call succeeds without touching the store. -/
theorem c3_amended (s : Store) (sender record_id now : Nat) (r : AuctionRecord)
    (hrec : s.record record_id = some r)
    (hstatus : r.status = AuctionStatus.NotStarted)
    (hbegin : now ≥ r.begin_time) :
    (bidExpiry r.end_time now = true →
      (r.item_seller ≠ sender →
        create_auction_record s sender sender record_id now =
          (withStatusWrite s record_id r (if r.item_receiver.isSome then
            AuctionStatus.Selled else AuctionStatus.Unselled), none)) ∧
      (r.item_seller = sender →
        create_auction_record s sender sender record_id now =
          (s, some "用户无此拍卖信息"))) ∧
    (bidExpiry r.end_time now = false →
      create_auction_record s sender sender record_id now = (s, none)) ∧
    (bidExpiry r.end_time now = true ↔
      r.end_time = none ∨ ∃ e, r.end_time = some e ∧ now > e) := by
  have hbid : ∀ res : Store × Option String,
      (bidExpiry r.end_time now = true →
        (if r.item_receiver.isSome then
            change_auction_status s sender record_id AuctionStatus.Selled
          else change_auction_status s sender record_id AuctionStatus.Unselled) = res) →
      (bidExpiry r.end_time now = false → (s, none) = res) →
      create_auction_record s sender sender record_id now = res := by
    intro res hexp hnexp
    unfold create_auction_record
    rw [if_neg (by simp), hrec]
    dsimp only
    rw [if_neg (by simp [hstatus]), if_neg (by simp [hbegin])]
    by_cases hb : bidExpiry r.end_time now = true
    · rw [if_pos hb]
      exact hexp hb
    · rw [if_neg hb]
      have := hnexp (by simpa using hb)
      by_cases hst : r.status = AuctionStatus.Started
      · rw [if_pos hst]; exact this
      · rw [if_neg hst]; exact this
  refine ⟨fun hexp => ⟨fun hsel => ?_, fun hsel => ?_⟩, fun hnexp => ?_, ?_⟩
  · refine hbid _ (fun _ => ?_) (fun hc => absurd hexp (by simp [hc]))
    by_cases hrecv : r.item_receiver.isSome
    · rw [if_pos hrecv, if_pos hrecv, change_status_ok hrec hsel]
    · rw [if_neg hrecv, if_neg hrecv, change_status_ok hrec hsel]
  · refine hbid _ (fun _ => ?_) (fun hc => absurd hexp (by simp [hc]))
    by_cases hrecv : r.item_receiver.isSome
    · rw [if_pos hrecv, change_status_fail_seller hrec hsel]
    · rw [if_neg hrecv, change_status_fail_seller hrec hsel]
  · exact hbid _ (fun hc => absurd hnexp (by simp [hc])) (fun _ => rfl)
  · cases he : r.end_time with
    | none => simp [bidExpiry]
    | some e => simp [bidExpiry, Nat.lt_iff_add_one_le]

/-- C3 amended, witnessed at the concrete expired store (`end_time = none`,
caller `3`, seller `5`): the settlement branch fires and rewrites only the
status, to `Unselled`. -/
theorem c3_amended_witness :
    create_auction_record demoStore 3 3 7 0 =
      (withStatusWrite demoStore 7 demoRecord (if demoRecord.item_receiver.isSome then
        AuctionStatus.Selled else AuctionStatus.Unselled), none) :=
  ((c3_amended demoStore 3 7 0 demoRecord rfl rfl (by decide)).1 (by decide)).1
    (by decide)

/-- C4: at a settle input satisfying every hypothesis of the claim (record
non-terminal and `Started`, `end_time = 5` set and before the current time
`9`, price raised above start), `auction_settle_accounts` hands
`change_auction_status` the **item id** (`2`) in the record-id position; no
record is stored under that key, so the call fails with the record-not-found
message and the record keeps its old status, instead of succeeding with a
`Selled`/`Unselled` transition. This theorem evaluates the code at that
failing input. -/
theorem c4_settle_passes_item_id :
    expiredStore.record 7 = some expiredRecord ∧
      expiredRecord.status = AuctionStatus.Started ∧
      expiredRecord.end_time = some 5 ∧
      expiredStore.record 2 = none ∧
      auction_settle_accounts expiredStore 3 2 9 = (expiredStore, some "无此拍卖信息") :=
  ⟨rfl, rfl, rfl, rfl, rfl⟩

/-- C5: the source's status guard is `ensure!(status == NotStarted)`, so a bid
on a record whose status is `Started` — which the claim says passes the status
check — is rejected with the not-biddable message (the source's own later
`else if status == Started` branch is unreachable because of this guard).
This theorem evaluates the code at that failing input. -/
theorem c5_started_rejected :
    startedRecord.status = AuctionStatus.Started ∧
      create_auction_record startedStore 3 3 7 5 =
        (startedStore, some "此拍卖品当前不可拍卖") :=
  ⟨rfl, rfl⟩

/-- C6: the source's first bid check is `ensure!(sender == auction_user)` —
it never consults the stored `item_seller` and has the opposite polarity of a
self-bid guard. At the concrete store (seller `5`): the seller's own bid
(sender `5`, `auction_user = 5`) sails past the check and is only stopped
later by the status guard, while a stranger's bid (sender `3`,
`auction_user = 5`) is the one rejected with the self-bid message. This
theorem evaluates the code at those failing inputs. -/
theorem c6_self_bid_check_broken :
    pausedRecord.item_seller = 5 ∧
      create_auction_record pausedStore 5 5 7 5 =
        (pausedStore, some "此拍卖品当前不可拍卖") ∧
      create_auction_record pausedStore 3 5 7 5 =
        (pausedStore, some "竞拍者不能为发布拍品人") :=
  ⟨rfl, rfl, rfl⟩

/-- C7 counterexample: `Selled` is not terminal. From the empty store, after
listing item `2` (record id `7`) and forcing the status to `Selled`
(caller `1`, accepted because the ownership check is inverted), a further
`change_auction_status` call moves the record back to `NotStarted`. -/
theorem c7_counterexample :
    (Store.record (runOps emptyStore
        [Op.create 1 2 0 10 1 5 7, Op.force 1 7 AuctionStatus.Selled]) 7).map
        AuctionRecord.status = some AuctionStatus.Selled ∧
      (Store.record (runOps emptyStore
        [Op.create 1 2 0 10 1 5 7, Op.force 1 7 AuctionStatus.Selled,
          Op.force 1 7 AuctionStatus.NotStarted]) 7).map
        AuctionRecord.status = some AuctionStatus.NotStarted :=
  ⟨rfl, rfl⟩

/-- C7 (amended): the bid and settlement paths respect terminality — a bid
never changes any stored `Selled`/`Unselled` record, and a settle call whose
index-resolved record is terminal returns with the store untouched — but
`change_auction_status` enforces no transition table: whenever the caller
differs from the stored seller it overwrites the status of any record,
terminal or not, with any requested value. -/
theorem c7_amended :
    (∀ s sender auction_user record_id now rid' r',
      Store.record s rid' = some r' →
      (r'.status = AuctionStatus.Selled ∨ r'.status = AuctionStatus.Unselled) →
      ((create_auction_record s sender auction_user record_id now).1).record rid' =
        some r') ∧
    (∀ s sender item_id now r,
      Store.record s (s.record_id (s.auction_item_record item_id, item_id)) = some r →
      (r.status = AuctionStatus.Selled ∨ r.status = AuctionStatus.Unselled) →
      (auction_settle_accounts s sender item_id now).1 = s) ∧
    (∀ s sender record_id st r,
      Store.record s record_id = some r →
      r.item_seller ≠ sender →
      change_auction_status s sender record_id st =
        (withStatusWrite s record_id r st, none)) := by
  refine ⟨?_, ?_, fun s sender record_id st r hrec hsel => change_status_ok hrec hsel⟩
  · intro s sender auction_user record_id now rid' r' hrec hterm
    by_cases hsu : sender = auction_user
    · unfold create_auction_record
      rw [if_neg (not_not_intro hsu)]
      cases hsome : s.record record_id with
      | none => exact hrec
      | some ar =>
        dsimp only
        by_cases hst : ar.status = AuctionStatus.NotStarted
        · rw [if_neg (not_not_intro hst)]
          by_cases hbg : now ≥ ar.begin_time
          · rw [if_neg (not_not_intro hbg)]
            by_cases hexp : bidExpiry ar.end_time now = true
            · rw [if_pos hexp]
              by_cases hrid : rid' = record_id
              · subst hrid
                rw [hrec] at hsome
                have har : r' = ar := Option.some.inj hsome
                rw [har, hst] at hterm
                rcases hterm with h | h <;> cases h
              · by_cases hrecv : ar.item_receiver.isSome
                · rw [if_pos hrecv, change_status_other_key hrid]; exact hrec
                · rw [if_neg hrecv, change_status_other_key hrid]; exact hrec
            · rw [if_neg hexp]
              by_cases hstarted : ar.status = AuctionStatus.Started
              · rw [if_pos hstarted]; exact hrec
              · rw [if_neg hstarted]; exact hrec
          · rw [if_pos hbg]; exact hrec
        · rw [if_pos hst]; exact hrec
    · unfold create_auction_record
      rw [if_pos hsu]
      exact hrec
  · intro s sender item_id now r hres hterm
    unfold auction_settle_accounts
    by_cases h1 : (mapLookup s.auctionsItemRecord item_id).isSome
    · rw [if_neg (not_not_intro h1)]
      dsimp only
      by_cases h2 : (mapLookup s.recordIds (s.auction_item_record item_id, item_id)).isSome
      · rw [if_neg (not_not_intro h2)]
        rw [hres]
        dsimp only
        rw [if_pos hterm]
      · rw [if_pos h2]
    · rw [if_pos h1]

/-- `demoRecord` already in the terminal `Selled` state. -/
def soldRecord : AuctionRecord := { demoRecord with status := AuctionStatus.Selled }

/-- A store holding `soldRecord` (with its two index entries). -/
def soldStore : Store :=
  { auctionRecords := [(7, soldRecord)]
    recordIds := [((5, 2), 7)]
    auctionsItemRecord := [(2, 5)] }

/-- C7 amended, witnessed concretely: a bid leaves the terminal `soldRecord`
in place, a settle call on the terminal record returns the store untouched,
and a `change_auction_status` call by a non-seller overwrites the status of
the `NotStarted` `demoRecord` to `Started` at will. -/
theorem c7_amended_witness :
    ((create_auction_record soldStore 3 3 7 9).1).record 7 = some soldRecord ∧
      (auction_settle_accounts soldStore 3 2 9).1 = soldStore ∧
      change_auction_status demoStore 3 7 AuctionStatus.Started =
        (withStatusWrite demoStore 7 demoRecord AuctionStatus.Started, none) :=
  ⟨c7_amended.1 soldStore 3 3 7 9 7 soldRecord rfl (Or.inl rfl),
   c7_amended.2.1 soldStore 3 2 9 soldRecord rfl (Or.inl rfl),
   c7_amended.2.2 demoStore 3 7 AuctionStatus.Started demoRecord rfl (by decide)⟩

/-- C8: every failure happens before any write — whenever one of the four
operations returns an error, the store it hands back (records and both
indices) is exactly the input store. -/
theorem c8_failures_leave_store_unchanged :
    (∀ s sender item_id begin_time start_price bid_range item_seller record_id e,
      (create_auction s sender item_id begin_time start_price bid_range item_seller
        record_id).2 = some e →
      (create_auction s sender item_id begin_time start_price bid_range item_seller
        record_id).1 = s) ∧
    (∀ s sender auction_user record_id now e,
      (create_auction_record s sender auction_user record_id now).2 = some e →
      (create_auction_record s sender auction_user record_id now).1 = s) ∧
    (∀ s sender item_id now e,
      (auction_settle_accounts s sender item_id now).2 = some e →
      (auction_settle_accounts s sender item_id now).1 = s) ∧
    (∀ s sender record_id st e,
      (change_auction_status s sender record_id st).2 = some e →
      (change_auction_status s sender record_id st).1 = s) := by
  refine ⟨?_, ?_, ?_, ?_⟩
  · intro s sender item_id bt sp br isl rid e h
    rcases create_auction_shape s sender item_id bt sp br isl rid with hk | hn
    · exact hk
    · rw [hn] at h; cases h
  · intro s sender au rid now e h
    rcases create_auction_record_shape s sender au rid now with hk | hn
    · exact hk
    · rw [hn] at h; cases h
  · intro s sender item now e h
    rcases auction_settle_accounts_shape s sender item now with hk | hn
    · exact hk
    · rw [hn] at h; cases h
  · intro s sender rid st e h
    rcases change_status_shape s sender rid st with hk | hn
    · exact hk
    · rw [hn] at h; cases h

/-- C8, witnessed at one concrete failing call of each operation: a listing
with `bid_range = 0`, a bid, a settle and a status change on the empty store
all fail and all return the empty store verbatim. -/
theorem c8_witness :
    (create_auction emptyStore 1 2 0 10 0 5 7).2 = some "加价幅度不可为0" ∧
      (create_auction emptyStore 1 2 0 10 0 5 7).1 = emptyStore ∧
      (create_auction_record emptyStore 3 3 7 0).2 = some "不存在此拍卖" ∧
      (create_auction_record emptyStore 3 3 7 0).1 = emptyStore ∧
      (auction_settle_accounts emptyStore 3 2 0).2 = some "不存在此拍卖" ∧
      (auction_settle_accounts emptyStore 3 2 0).1 = emptyStore ∧
      (change_auction_status emptyStore 3 7 AuctionStatus.Paused).2 = some "无此拍卖信息" ∧
      (change_auction_status emptyStore 3 7 AuctionStatus.Paused).1 = emptyStore :=
  ⟨rfl,
   c8_failures_leave_store_unchanged.1 emptyStore 1 2 0 10 0 5 7 "加价幅度不可为0" rfl,
   rfl,
   c8_failures_leave_store_unchanged.2.1 emptyStore 3 3 7 0 "不存在此拍卖" rfl,
   rfl,
   c8_failures_leave_store_unchanged.2.2.1 emptyStore 3 2 0 "不存在此拍卖" rfl,
   rfl,
   c8_failures_leave_store_unchanged.2.2.2 emptyStore 3 7 AuctionStatus.Paused
     "无此拍卖信息" rfl⟩

/-- C9: a `create_auction` call with a positive `bid_range` on an unlisted
item succeeds; the freshly generated `record_id` now maps to a record with
`status = NotStarted`, `current_price = 0`, `item_receiver = none` (and the
caller's parameters in the remaining fields), the `item_id` index maps to the
seller, and the `(seller, item_id)` index maps to the new `record_id`. -/
theorem c9_create_auction_success (s : Store) (sender item_id begin_time start_price
    bid_range item_seller record_id : Nat)
    (hbr : bid_range > 0)
    (hitem : mapLookup s.auctionsItemRecord item_id = none) :
    (create_auction s sender item_id begin_time start_price bid_range item_seller
      record_id).2 = none ∧
    ((create_auction s sender item_id begin_time start_price bid_range item_seller
      record_id).1).record record_id = some
        { record_id := record_id
          item_id := item_id
          begin_time := begin_time
          end_time := none
          start_price := start_price
          current_price := 0
          bid_range := bid_range
          status := AuctionStatus.NotStarted
          item_receiver := none
          item_seller := item_seller } ∧
    mapLookup ((create_auction s sender item_id begin_time start_price bid_range
      item_seller record_id).1).auctionsItemRecord item_id = some item_seller ∧
    mapLookup ((create_auction s sender item_id begin_time start_price bid_range
      item_seller record_id).1).recordIds (item_seller, item_id) = some record_id := by
  unfold create_auction
  rw [if_neg (not_not_intro hbr), if_neg (by simp [hitem])]
  refine ⟨rfl, ?_, ?_, ?_⟩
  · simp only [Store.record]
    rw [mapLookup_mapInsert, if_pos rfl]
  · dsimp only
    rw [mapLookup_mapInsert, if_pos rfl]
  · dsimp only
    rw [mapLookup_mapInsert, if_pos rfl]

/-- C9, witnessed at the concrete listing that builds `demoStore`. -/
theorem c9_witness :
    (create_auction emptyStore 1 2 0 10 1 5 7).2 = none ∧
      ((create_auction emptyStore 1 2 0 10 1 5 7).1).record 7 = some
        { record_id := 7
          item_id := 2
          begin_time := 0
          end_time := none
          start_price := 10
          current_price := 0
          bid_range := 1
          status := AuctionStatus.NotStarted
          item_receiver := none
          item_seller := 5 } ∧
      mapLookup ((create_auction emptyStore 1 2 0 10 1 5 7).1).auctionsItemRecord 2 =
        some 5 ∧
      mapLookup ((create_auction emptyStore 1 2 0 10 1 5 7).1).recordIds (5, 2) = some 7 :=
  c9_create_auction_success emptyStore 1 2 0 10 1 5 7 (by decide) rfl

/-- C10: in every store reachable from the empty ledger by any sequence of
the exposed operations, every stored record still has `end_time = none`,
`item_receiver = none` and `current_price = 0`, exactly as `create_auction`
set them (the source's `create_auction` takes no end-time parameter and
always stores `end_time = none`); moreover the bid, settle and force-status
operations rewrite at most the `status` field of any stored record. -/
theorem c10_fields_frozen :
    (∀ ops rid r, (runOps emptyStore ops).record rid = some r →
      r.end_time = none ∧ r.item_receiver = none ∧ r.current_price = 0) ∧
    (∀ s sender auction_user record_id now rid' r',
      ((create_auction_record s sender auction_user record_id now).1).record rid' =
        some r' →
      ∃ r0, Store.record s rid' = some r0 ∧ r' = setStatus r0 r'.status) ∧
    (∀ s sender item_id now rid' r',
      ((auction_settle_accounts s sender item_id now).1).record rid' = some r' →
      ∃ r0, Store.record s rid' = some r0 ∧ r' = setStatus r0 r'.status) ∧
    (∀ s sender record_id st rid' r',
      ((change_auction_status s sender record_id st).1).record rid' = some r' →
      ∃ r0, Store.record s rid' = some r0 ∧ r' = setStatus r0 r'.status) :=
  ⟨fun ops rid r h => storeInv_runOps emptyStore ops storeInv_empty rid r h,
   fun _ _ _ _ _ _ _ h => create_auction_record_onlyStatus h,
   fun _ _ _ _ _ _ h => auction_settle_accounts_onlyStatus h,
   fun _ _ _ _ _ _ h => change_status_onlyStatus h⟩

/-- C10, witnessed on the concrete reachable store `demoStore` (one listing
followed by a forced status change): the surviving record keeps
`end_time = none`, `item_receiver = none`, `current_price = 0`. -/
theorem c10_witness :
    Store.record (runOps emptyStore
        [Op.create 1 2 0 10 1 5 7, Op.force 3 7 AuctionStatus.Paused]) 7 =
      some (setStatus demoRecord AuctionStatus.Paused) ∧
      (setStatus demoRecord AuctionStatus.Paused).end_time = none ∧
      (setStatus demoRecord AuctionStatus.Paused).item_receiver = none ∧
      (setStatus demoRecord AuctionStatus.Paused).current_price = 0 :=
  ⟨rfl, c10_fields_frozen.1 [Op.create 1 2 0 10 1 5 7, Op.force 3 7 AuctionStatus.Paused]
    7 (setStatus demoRecord AuctionStatus.Paused) rfl⟩

end AuctionPallet
